import Mathlib

/-!
Shallow embedding of the single-decree Paxos node in `src/main.rs` of
noghartt/paxos-from-scratch.

Machine integers (`u64`, `usize`) are modelled as `Nat`; the only u64
arithmetic in the code is the proposer counter increment, embedded with an
explicit `% 2^64`.  Network transport is modelled by passing each fan-out's
per-peer outcome as a `List (Option payload)`: `none` is a transport-level
failure (a `Result::Err` dropped by `.flatten()`), `some payload` is a
deserialized response, whose `error` field may or may not be set.
The `HashMap` ledger is modelled as a finite-support map `Nat → Option String`
with overwriting insert, matching `HashMap::insert` lookup semantics.
-/

namespace PaxosScratch

/-- `struct Ballot { id: u64, value: Option<String> }`. -/
structure Ballot where
  id : Nat
  value : Option String
deriving DecidableEq, Repr

/-- `struct Acceptor { last_ballot_number: u64, accepted_proposal: Option<Propose> }`
where `type Propose = Value = String`. -/
structure Acceptor where
  last_ballot_number : Nat
  accepted_proposal : Option String
deriving DecidableEq, Repr

/-- `struct Node { id: u64, addr: SocketAddr }`; the address is abstracted to a string. -/
structure Node where
  id : Nat
  addr : String
deriving DecidableEq, Repr

/-- `struct HandleProposalPayload { error: Option<String>, value: Option<Ballot> }`. -/
structure HandleProposalPayload where
  error : Option String
  value : Option Ballot
deriving DecidableEq, Repr

/-- `struct HandleAcceptPayload { error: Option<String>, value: Option<Ballot> }`. -/
structure HandleAcceptPayload where
  error : Option String
  value : Option Ballot
deriving DecidableEq, Repr

/-- `struct Proposer { id: u64 }`. -/
structure Proposer where
  id : Nat
deriving DecidableEq, Repr

/-- `type Ledger = HashMap<Id, Value>`, as a map from ballot id to decided value. -/
def Ledger : Type := Nat → Option String

/-- `HashMap::insert`: overwrite the entry at key `k`. -/
def Ledger.insert (l : Ledger) (k : Nat) (v : String) : Ledger :=
  fun q => if q = k then some v else l q

/-- The `/handle-prepare` handler acting on the acceptor state: returns the new
acceptor state and the response payload (the HTTP status is determined by the
`error` field). -/
def handle_prepare (a : Acceptor) (proposal_id : Nat) :
    Acceptor × HandleProposalPayload :=
  if proposal_id < a.last_ballot_number then
    (a, { error := some "The proposal ID is lesser than the last accepted ballot number",
          value := none })
  else
    let a' : Acceptor := { a with last_ballot_number := proposal_id }
    if a'.accepted_proposal.isSome then
      (a', { error := none, value := some { id := proposal_id, value := a'.accepted_proposal } })
    else
      (a', { error := none, value := some { id := proposal_id, value := none } })

/-- The `/handle-accept` handler acting on the acceptor state. -/
def handle_accept (a : Acceptor) (propose : Ballot) :
    Acceptor × HandleAcceptPayload :=
  if a.last_ballot_number ≠ propose.id then
    (a, { error := some "Node received a proposal with a ballot ID different!",
          value := none })
  else
    ({ a with accepted_proposal := propose.value },
     { error := none, value := some { id := propose.id, value := propose.value } })

/-- The `/handle-learn` handler acting on the ledger. -/
def handle_learn (l : Ledger) (payload : Ballot) : Ledger :=
  match payload.value with
  | none => l.insert payload.id ""
  | some v => l.insert payload.id v

/-- The `/ping` join handshake: given the local node, the current membership
list and the requester's (already parsed) id and address, returns the possibly
extended list and either an error message or the responder's `(id, addr)`. -/
def ping (selfNode : Node) (nodes : List Node) (body_id : Nat) (body_addr : String) :
    List Node × Except String (Nat × String) :=
  if body_id = selfNode.id then
    (nodes, .error "You can\x27t connect in the same node!")
  else if nodes.any (fun n => n.id = body_id) then
    (nodes, .error "You\x27re already connected in this node!")
  else
    (nodes ++ [{ id := body_id, addr := body_addr }], .ok (selfNode.id, selfNode.addr))

/-- The key of `max_by_key` in `Proposer::prepare`:
`match &promise.value { None => 0, Some(value) => value.id }`. -/
def promiseKey (p : HandleProposalPayload) : Nat :=
  match p.value with
  | none => 0
  | some v => v.id

/-- Rust `Iterator::max_by_key` specialised to `HandleProposalPayload` and
`promiseKey`: returns the LAST element with the maximal key (`max_by_key`
returns the last of several equally maximal elements), `none` on `[]`. -/
def maxByKey : List HandleProposalPayload → Option HandleProposalPayload
  | [] => none
  | p :: ps =>
    match maxByKey ps with
    | none => some p
    | some q => if promiseKey p ≤ promiseKey q then some q else some p

/-- `let quorum = (nodes.len() / 2) + 1`. -/
def quorum (nodesLen : Nat) : Nat := nodesLen / 2 + 1

/-- The value-resolution tail of `Proposer::prepare` (lines 333-355): filter the
promises whose payload carries a ballot, take the one with the greatest ballot
id, and unwrap down to its optional value, falling back to the caller's
`value` at every `None`. -/
def resolveValue (promises : List HandleProposalPayload) (value : String) : Option String :=
  let accepted_promise :=
    maxByKey (promises.filter (fun promise => promise.value.isSome))
  match accepted_promise with
  | none => some value
  | some payload =>
    match payload.value with
    | none => some value
    | some ballot =>
      match ballot.value with
      | none => some value
      | some b => some b

/-- `Proposer::prepare`: increments the ballot counter (u64 wrap-around made
explicit), counts the transport-successful responses against the quorum with no
self-count, and resolves the proposal value.  `responses` has one entry per
peer in the membership list (`none` = unreachable peer). -/
def Proposer.prepare (p : Proposer) (responses : List (Option HandleProposalPayload))
    (value : String) : Proposer × Except String Ballot :=
  let newId := (p.id + 1) % 2 ^ 64
  let promises := responses.filterMap (fun r => r)
  if promises.length < quorum responses.length then
    (⟨newId⟩, .error "Proposal does not receive promises of the entire quorum")
  else
    (⟨newId⟩, .ok { id := newId, value := resolveValue promises value })

/-- `Proposer::propose`: counts the transport-successful accept responses plus
one for self against the quorum.  `responses` has one entry per peer. -/
def Proposer.propose (responses : List (Option HandleAcceptPayload)) :
    Except String Unit :=
  let accepted_ballots := responses.filterMap (fun r => r)
  if accepted_ballots.length + 1 < quorum responses.length then
    .error "Proposal not accepted by majority"
  else
    .ok ()

/-- The proposer-side mutable state touched by the `/prepare` HTTP handler. -/
structure RoundState where
  proposer : Proposer
  ledger : Ledger

/-- The `/prepare` HTTP handler (lines 172-199): run the prepare phase, and only
if it succeeds run the propose phase, and only if that succeeds insert the
decided value into the local ledger (the learn broadcast to peers is a network
effect outside this node's state). -/
def prepareHandler (st : RoundState) (value : String)
    (prepResponses : List (Option HandleProposalPayload))
    (accResponses : List (Option HandleAcceptPayload)) :
    RoundState × Except String String :=
  let pr := st.proposer.prepare prepResponses value
  match pr.2 with
  | .error e => ({ st with proposer := pr.1 }, .error e)
  | .ok ballot =>
    match Proposer.propose accResponses with
    | .error e => ({ st with proposer := pr.1 }, .error e)
    | .ok _ =>
      ({ proposer := pr.1, ledger := st.ledger.insert ballot.id (ballot.value.getD "") },
       .ok "Proposal accepted by the majority!")

/-- One inbound acceptor-facing request. -/
inductive AcceptorOp where
  | prep (proposalId : Nat)
  | acc (b : Ballot)
deriving DecidableEq, Repr

/-- Apply one request to the acceptor state (dropping the response). -/
def applyOp (a : Acceptor) : AcceptorOp → Acceptor
  | .prep pid => (handle_prepare a pid).1
  | .acc b => (handle_accept a b).1

/-- Apply a sequence of requests to the acceptor state. -/
def applyOps (a : Acceptor) (ops : List AcceptorOp) : Acceptor :=
  ops.foldl applyOp a

/-! ## Helper lemmas -/

/-- `maxByKey` returns `none` only on the empty list. -/
theorem maxByKey_eq_none (l : List HandleProposalPayload)
    (h : maxByKey l = none) : l = [] := by
  cases l with
  | nil => rfl
  | cons p ps =>
    rw [maxByKey] at h
    cases hm : maxByKey ps <;> rw [hm] at h <;> dsimp only at h
    · simp at h
    · split at h <;> simp at h

/-- A result of `maxByKey` is an element of the list. -/
theorem maxByKey_mem (l : List HandleProposalPayload) (q : HandleProposalPayload)
    (h : maxByKey l = some q) : q ∈ l := by
  induction l generalizing q with
  | nil => simp [maxByKey] at h
  | cons p ps ih =>
    rw [maxByKey] at h
    cases hm : maxByKey ps with
    | none =>
      rw [hm] at h
      dsimp only at h
      simp only [Option.some.injEq] at h
      simp [h]
    | some r =>
      rw [hm] at h
      dsimp only at h
      by_cases hk : promiseKey p ≤ promiseKey r
      · rw [if_pos hk] at h
        simp only [Option.some.injEq] at h
        subst h
        exact List.mem_cons_of_mem _ (ih r hm)
      · rw [if_neg hk] at h
        simp only [Option.some.injEq] at h
        simp [h]

/-- A result of `maxByKey` has the greatest key in the list. -/
theorem maxByKey_le (l : List HandleProposalPayload) (q : HandleProposalPayload)
    (h : maxByKey l = some q) : ∀ r ∈ l, promiseKey r ≤ promiseKey q := by
  induction l generalizing q with
  | nil => simp
  | cons p ps ih =>
    rw [maxByKey] at h
    intro r hr
    cases hm : maxByKey ps with
    | none =>
      rw [hm] at h
      dsimp only at h
      simp only [Option.some.injEq] at h
      subst h
      have hps := maxByKey_eq_none ps hm
      subst hps
      rcases List.mem_cons.mp hr with hr | hr
      · subst hr; exact le_refl _
      · simp at hr
    | some m =>
      rw [hm] at h
      dsimp only at h
      by_cases hk : promiseKey p ≤ promiseKey m
      · rw [if_pos hk] at h
        simp only [Option.some.injEq] at h
        subst h
        rcases List.mem_cons.mp hr with hr | hr
        · subst hr; exact hk
        · exact ih m hm r hr
      · rw [if_neg hk] at h
        simp only [Option.some.injEq] at h
        subst h
        rcases List.mem_cons.mp hr with hr | hr
        · subst hr; exact le_refl _
        · exact le_trans (ih m hm r hr) (le_of_not_le hk)

/-- If every promise in the list is bare (its ballot, when present, carries no
value), the resolution falls back to the caller-supplied value. -/
theorem resolveValue_of_bare (promises : List HandleProposalPayload) (v : String)
    (h : ∀ pl ∈ promises, ∀ b, pl.value = some b → b.value = none) :
    resolveValue promises v = some v := by
  unfold resolveValue
  cases hmax : maxByKey (promises.filter fun promise => promise.value.isSome) with
  | none => rfl
  | some payload =>
    have hmem := maxByKey_mem _ _ hmax
    have hmem' := (List.mem_filter.mp hmem).1
    cases hpv : payload.value with
    | none => simp [hpv]
    | some ballot =>
      have hb := h payload hmem' ballot hpv
      simp [hpv, hb]

/-- One acceptor-facing request never decreases `last_ballot_number`. -/
theorem applyOp_last_mono (a : Acceptor) (op : AcceptorOp) :
    a.last_ballot_number ≤ (applyOp a op).last_ballot_number := by
  cases op with
  | prep pid =>
    simp only [applyOp, handle_prepare]
    split
    · exact le_refl _
    · rename_i hlt
      split <;> simp <;> omega
  | acc b =>
    simp only [applyOp, handle_accept]
    split <;> simp

/-- A sequence of acceptor-facing requests never decreases `last_ballot_number`. -/
theorem applyOps_last_mono (a : Acceptor) (ops : List AcceptorOp) :
    a.last_ballot_number ≤ (applyOps a ops).last_ballot_number := by
  induction ops generalizing a with
  | nil => exact le_refl _
  | cons op ops ih =>
    simp only [applyOps, List.foldl] at *
    exact le_trans (applyOp_last_mono a op) (ih (applyOp a op))

/-! ## Claim theorems -/

/-- C4: for every sequence of `handle_prepare`/`handle_accept` calls applied to
one Acceptor, `last_ballot_number` is non-decreasing over the whole sequence,
and every `handle_prepare` call with proposal id strictly below the current
`last_ballot_number` fails with the stale-proposal rejection and leaves the
entire acceptor state unchanged. -/
theorem claim_C4_acceptor_monotone_stale (a : Acceptor) (ops : List AcceptorOp) :
    a.last_ballot_number ≤ (applyOps a ops).last_ballot_number ∧
    ∀ pid, pid < a.last_ballot_number →
      handle_prepare a pid =
        (a, { error := some "The proposal ID is lesser than the last accepted ballot number",
              value := none }) := by
  refine ⟨applyOps_last_mono a ops, fun pid h => ?_⟩
  simp [handle_prepare, h]

/-- C4 witness: a stale prepare (id 3 against watermark 5) is rejected and
mutates nothing. -/
theorem claim_C4_witness :
    handle_prepare ⟨5, none⟩ 3 =
      (⟨5, none⟩,
       { error := some "The proposal ID is lesser than the last accepted ballot number",
         value := none }) :=
  (claim_C4_acceptor_monotone_stale ⟨5, none⟩ []).2 3 (by decide)

/-- C5: `handle_accept` succeeds exactly when the ballot id equals
`last_ballot_number`: on success it overwrites `accepted_proposal` with the
ballot's value and echoes the accepted ballot back; on mismatch it fails with
the ballot-mismatch rejection and leaves the whole acceptor state unchanged. -/
theorem claim_C5_handle_accept_cases (a : Acceptor) (b : Ballot) :
    (b.id = a.last_ballot_number →
      handle_accept a b =
        ({ a with accepted_proposal := b.value },
         { error := none, value := some { id := b.id, value := b.value } })) ∧
    (b.id ≠ a.last_ballot_number →
      handle_accept a b =
        (a, { error := some "Node received a proposal with a ballot ID different!",
              value := none })) := by
  constructor
  · intro h
    simp [handle_accept, h.symm]
  · intro h
    simp [handle_accept, Ne.symm h]

/-- C5 witness: accept at the matching id 3 overwrites the stored value; accept
at id 4 against watermark 3 is rejected without mutation. -/
theorem claim_C5_witness :
    handle_accept ⟨3, some "old"⟩ ⟨3, some "new"⟩ =
      (⟨3, some "new"⟩, { error := none, value := some { id := 3, value := some "new" } }) ∧
    handle_accept ⟨3, some "old"⟩ ⟨4, some "new"⟩ =
      (⟨3, some "old"⟩,
       { error := some "Node received a proposal with a ballot ID different!",
         value := none }) :=
  ⟨(claim_C5_handle_accept_cases ⟨3, some "old"⟩ ⟨3, some "new"⟩).1 rfl,
   (claim_C5_handle_accept_cases ⟨3, some "old"⟩ ⟨4, some "new"⟩).2 (by decide)⟩

/-- C8: replaying the same learn message into a Ledger twice produces the same
final entry at the ballot's key as applying it once, and a learn whose ballot
carries no value stores the empty string under the ballot's id. -/
theorem claim_C8_learn_idempotent (l : Ledger) (b : Ballot) :
    handle_learn (handle_learn l b) b b.id = handle_learn l b b.id ∧
    (b.value = none → handle_learn l b b.id = some "") := by
  constructor
  · cases hb : b.value <;> simp [handle_learn, hb, Ledger.insert]
  · intro h
    simp [handle_learn, h, Ledger.insert]

/-- C8 witness: learning ballot 7 with no value writes the empty string at
key 7. -/
theorem claim_C8_witness :
    handle_learn (fun _ => none) ⟨7, none⟩ 7 = some "" :=
  (claim_C8_learn_idempotent (fun _ => none) ⟨7, none⟩).2 rfl

/-- C10: on an acceptor currently holding an accepted value, an accept whose id
matches the watermark but whose value is `none` erases `accepted_proposal`, and
a subsequent non-stale prepare returns a bare promise carrying no value. -/
theorem claim_C10_accept_none_erases (a : Acceptor) (v : String) (pid : Nat)
    (hv : a.accepted_proposal = some v)
    (hp : a.last_ballot_number ≤ pid) :
    (handle_accept a { id := a.last_ballot_number, value := none }).1.accepted_proposal = none ∧
    (handle_prepare (handle_accept a { id := a.last_ballot_number, value := none }).1 pid).2 =
      { error := none, value := some { id := pid, value := none } } := by
  have hacc : (handle_accept a { id := a.last_ballot_number, value := none }).1 =
      { a with accepted_proposal := none } := by
    simp [handle_accept]
  refine ⟨by rw [hacc], ?_⟩
  rw [hacc]
  simp [handle_prepare, Nat.not_lt_of_le hp]

/-- C10 witness: an acceptor at watermark 4 holding value x loses it after an
id-4 valueless accept, and a prepare at id 6 then returns a bare promise. -/
theorem claim_C10_witness :
    (handle_accept ⟨4, some "x"⟩ { id := 4, value := none }).1.accepted_proposal = none ∧
    (handle_prepare (handle_accept ⟨4, some "x"⟩ { id := 4, value := none }).1 6).2 =
      { error := none, value := some { id := 6, value := none } } :=
  claim_C10_accept_none_erases ⟨4, some "x"⟩ "x" 6 rfl (by decide)

/-- If the filtered maximum carries ballot `c` whose value is `some w`, the
resolution yields `some w`. -/
theorem resolveValue_eq_of_target (promises : List HandleProposalPayload) (v w : String)
    (m : HandleProposalPayload) (c : Ballot)
    (hm : maxByKey (promises.filter fun promise => promise.value.isSome) = some m)
    (hc : m.value = some c) (hcw : c.value = some w) :
    resolveValue promises v = some w := by
  simp only [resolveValue]
  rw [hm]
  dsimp only
  rw [hc]
  dsimp only
  rw [hcw]

/-- C9: the join handshake rejects a requester whose id equals the local node's
own id, and a requester whose id is already in the membership list, with a
caller-visible error and the list unchanged; otherwise it appends the peer and
returns the responder's identity. -/
theorem claim_C9_ping_membership (selfNode : Node) (nodes : List Node) (bid : Nat)
    (baddr : String) :
    (bid = selfNode.id →
      ping selfNode nodes bid baddr =
        (nodes, .error "You can\x27t connect in the same node!")) ∧
    (bid ≠ selfNode.id → (nodes.any fun n => n.id = bid) = true →
      ping selfNode nodes bid baddr =
        (nodes, .error "You\x27re already connected in this node!")) ∧
    (bid ≠ selfNode.id → (nodes.any fun n => n.id = bid) = false →
      ping selfNode nodes bid baddr =
        (nodes ++ [{ id := bid, addr := baddr }], .ok (selfNode.id, selfNode.addr))) := by
  refine ⟨fun h1 => ?_, fun h1 h2 => ?_, fun h1 h2 => ?_⟩
  · simp [ping, h1]
  · simp [ping, h1, h2]
  · simp [ping, h1, h2]

/-- C9 witness: node 1 rejects a self-join, rejects a duplicate of peer 2, and
appends a fresh peer 3. -/
theorem claim_C9_witness :
    ping ⟨1, "a1"⟩ [⟨2, "a2"⟩] 1 "a1" =
      ([⟨2, "a2"⟩], .error "You can\x27t connect in the same node!") ∧
    ping ⟨1, "a1"⟩ [⟨2, "a2"⟩] 2 "a2" =
      ([⟨2, "a2"⟩], .error "You\x27re already connected in this node!") ∧
    ping ⟨1, "a1"⟩ [⟨2, "a2"⟩] 3 "a3" =
      ([⟨2, "a2"⟩, ⟨3, "a3"⟩], .ok (1, "a1")) :=
  ⟨(claim_C9_ping_membership ⟨1, "a1"⟩ [⟨2, "a2"⟩] 1 "a1").1 rfl,
   (claim_C9_ping_membership ⟨1, "a1"⟩ [⟨2, "a2"⟩] 2 "a2").2.1 (by decide) (by decide),
   (claim_C9_ping_membership ⟨1, "a1"⟩ [⟨2, "a2"⟩] 3 "a3").2.2 (by decide) (by decide)⟩

/-- C6: a prepare round that reaches quorum, all of whose transport-successful
promises are bare (their ballots, when present, carry no value — which also
covers the case of no value-carrying promise at all), resolves to the
caller-supplied value and succeeds. -/
theorem claim_C6_bare_fallback (p : Proposer) (rs : List (Option HandleProposalPayload))
    (v : String)
    (hq : quorum rs.length ≤ (rs.filterMap (fun r => r)).length)
    (hbare : ∀ pl ∈ rs.filterMap (fun r => r), ∀ b, pl.value = some b → b.value = none) :
    (p.prepare rs v).2 = .ok { id := (p.id + 1) % 2 ^ 64, value := some v } := by
  simp only [Proposer.prepare]
  rw [if_neg (Nat.not_lt_of_le hq)]
  rw [resolveValue_of_bare _ v hbare]

/-- C6 witness: three peers, two bare promises (one unreachable peer) resolve
to the caller's value. -/
theorem claim_C6_witness :
    (Proposer.prepare ⟨0⟩
        [some { error := none, value := some { id := 1, value := none } },
         some { error := none, value := some { id := 1, value := none } },
         none] "hello").2
      = .ok { id := 1, value := some "hello" } :=
  claim_C6_bare_fallback ⟨0⟩
    [some { error := none, value := some { id := 1, value := none } },
     some { error := none, value := some { id := 1, value := none } },
     none] "hello" (by decide) (by decide)

/-- C7: when the prepare phase fails, the `/prepare` handler returns that error,
leaves the ledger unchanged, and its outcome is independent of the accept-phase
responses — the propose phase is never consulted. -/
theorem claim_C7_abort_preserves_ledger (st : RoundState) (value : String)
    (prepRs : List (Option HandleProposalPayload))
    (accRs accRs' : List (Option HandleAcceptPayload)) (e : String)
    (h : (st.proposer.prepare prepRs value).2 = .error e) :
    (prepareHandler st value prepRs accRs).1.ledger = st.ledger ∧
    (prepareHandler st value prepRs accRs).2 = .error e ∧
    prepareHandler st value prepRs accRs = prepareHandler st value prepRs accRs' := by
  have hh : ∀ accs : List (Option HandleAcceptPayload),
      prepareHandler st value prepRs accs =
        ({ st with proposer := (st.proposer.prepare prepRs value).1 }, .error e) := by
    intro accs
    simp only [prepareHandler]
    rw [h]
  rw [hh accRs, hh accRs']
  exact ⟨rfl, rfl, rfl⟩

/-- C7 witness: two unreachable peers make prepare fail with the quorum error;
the handler propagates it and the ledger entry at key 1 stays empty whatever the
accept responses would have said. -/
theorem claim_C7_witness :
    (prepareHandler ⟨⟨0⟩, fun _ => none⟩ "v" [none, none]
        [some { error := none, value := some { id := 1, value := some "v" } }]).1.ledger 1 = none ∧
    (prepareHandler ⟨⟨0⟩, fun _ => none⟩ "v" [none, none]
        [some { error := none, value := some { id := 1, value := some "v" } }]).2
      = .error "Proposal does not receive promises of the entire quorum" := by
  have hc := claim_C7_abort_preserves_ledger ⟨⟨0⟩, fun _ => none⟩ "v" [none, none]
    [some { error := none, value := some { id := 1, value := some "v" } }] []
    "Proposal does not receive promises of the entire quorum" rfl
  exact ⟨by rw [hc.1], hc.2.1⟩

/-- C2 counterexample: with 2 peers and exactly 1 successful promise the claim
says the implicit self-count makes 2 of quorum 2 and the round proceeds, but
`Proposer::prepare` adds no self-count and aborts with the quorum error. -/
theorem claim_C2_counterexample :
    (Proposer.prepare ⟨0⟩
        [some { error := none, value := some { id := 1, value := none } }, none] "v").2
      = .error "Proposal does not receive promises of the entire quorum" := rfl

/-- C2 amended: `quorum = floor(N/2)+1`; the prepare phase aborts with the
quorum error exactly when the number of transport-successful responses alone
(no self-count) is below quorum, while the propose phase counts the responses
plus one for self. -/
theorem claim_C2_amended (p : Proposer) (rs : List (Option HandleProposalPayload))
    (v : String) (accs : List (Option HandleAcceptPayload)) :
    ((p.prepare rs v).2 = .error "Proposal does not receive promises of the entire quorum" ↔
      (rs.filterMap (fun r => r)).length < quorum rs.length) ∧
    (Proposer.propose accs = .error "Proposal not accepted by majority" ↔
      (accs.filterMap (fun r => r)).length + 1 < quorum accs.length) := by
  constructor
  · simp only [Proposer.prepare]
    split
    · rename_i hc
      simp [hc]
    · rename_i hc
      simp [hc]
  · simp only [Proposer.propose]
    split
    · rename_i hc
      simp [hc]
    · rename_i hc
      simp [hc]

/-- C2 amended witness: 3 peers all unreachable abort prepare; 3 peers with one
response pass propose (1 + 1 self is not below quorum 2). -/
theorem claim_C2_amended_witness :
    (Proposer.prepare ⟨0⟩ [none, none, none] "v").2
      = .error "Proposal does not receive promises of the entire quorum" :=
  (claim_C2_amended ⟨0⟩ [none, none, none] "v" []).1.mpr (by decide)

/-- C3 counterexample: a single peer answering only a substantive rejection
(error field set, no ballot) still counts toward quorum, so prepare proceeds
with the caller's value instead of aborting; likewise propose succeeds with 3
peers of which the only responder sent a rejection payload. -/
theorem claim_C3_counterexample :
    (Proposer.prepare ⟨0⟩
        [some { error := some "The proposal ID is lesser than the last accepted ballot number",
                value := none }] "v").2
      = .ok { id := 1, value := some "v" } ∧
    Proposer.propose
        [some { error := some "Node received a proposal with a ballot ID different!",
                value := none },
         none, none]
      = .ok () :=
  ⟨rfl, rfl⟩

/-- C3 amended: only transport-level failures are excluded from the response
set; a deserialized response whose error field is set still counts toward
quorum in both phases, so both phases can succeed on rejections alone. -/
theorem claim_C3_amended (p : Proposer) (rs : List (Option HandleProposalPayload))
    (v : String) (accs : List (Option HandleAcceptPayload))
    (hrej : ∀ pl ∈ rs.filterMap (fun r => r), pl.error.isSome = true ∧ pl.value = none)
    (hq : quorum rs.length ≤ (rs.filterMap (fun r => r)).length)
    (hq2 : quorum accs.length ≤ (accs.filterMap (fun r => r)).length + 1) :
    (p.prepare rs v).2 = .ok { id := (p.id + 1) % 2 ^ 64, value := some v } ∧
    Proposer.propose accs = .ok () := by
  constructor
  · simp only [Proposer.prepare]
    rw [if_neg (Nat.not_lt_of_le hq)]
    rw [resolveValue_of_bare _ v]
    intro pl hpl b hb
    rw [(hrej pl hpl).2] at hb
    exact absurd hb (by simp)
  · simp only [Proposer.propose]
    rw [if_neg (Nat.not_lt_of_le hq2)]

/-- C3 amended witness: one peer sending only a stale-proposal rejection meets
prepare quorum; three peers with one mismatch rejection meet propose quorum. -/
theorem claim_C3_amended_witness :
    (Proposer.prepare ⟨7⟩
        [some { error := some "The proposal ID is lesser than the last accepted ballot number",
                value := none }] "w").2
      = .ok { id := 8, value := some "w" } ∧
    Proposer.propose
        [some { error := some "Node received a proposal with a ballot ID different!",
                value := none },
         none, none]
      = .ok () :=
  claim_C3_amended ⟨7⟩
    [some { error := some "The proposal ID is lesser than the last accepted ballot number",
            value := none }] "w"
    [some { error := some "Node received a proposal with a ballot ID different!",
            value := none },
     none, none]
    (by decide) (by decide) (by decide)

/-- C1 counterexample: a bare promise carrying ballot id 9 outranks a promise
carrying ballot id 5 with accepted value "a", and the code then falls back to
the caller-supplied value — the resolved value is neither the value-carrying
promise's nested value nor `none`, contradicting the claimed selection rule. -/
theorem claim_C1_counterexample :
    (Proposer.prepare ⟨41⟩
        [some { error := none, value := some { id := 9, value := none } },
         some { error := none, value := some { id := 5, value := some "a" } }] "caller").2
      = .ok { id := 42, value := some "caller" } ∧ ("caller" : String) ≠ "a" :=
  ⟨rfl, by decide⟩

/-- C1 amended: among promises whose payload carries a ballot, prepare selects
one with the numerically greatest ballot id; whenever a promise carries ballot
`b` with value `w` and every carried ballot has id at most `b.id`, those at
`b.id` itself carrying `w`, the resolved proposal value is `w` — in particular
with carried ballots of ids 5 and 9 both holding values, the id-9 value wins.
When the greatest-id ballot is bare, the caller's value is used instead. -/
theorem claim_C1_amended (p : Proposer) (rs : List (Option HandleProposalPayload))
    (v : String) (sel : HandleProposalPayload) (b : Ballot) (w : String)
    (hq : quorum rs.length ≤ (rs.filterMap (fun r => r)).length)
    (hmem : sel ∈ rs.filterMap (fun r => r))
    (hsel : sel.value = some b)
    (hw : b.value = some w)
    (hmax : ∀ q ∈ rs.filterMap (fun r => r), ∀ c, q.value = some c →
      c.id ≤ b.id ∧ (c.id = b.id → c.value = some w)) :
    (p.prepare rs v).2 = .ok { id := (p.id + 1) % 2 ^ 64, value := some w } := by
  have hself : sel ∈ (rs.filterMap (fun r => r)).filter
      (fun promise => promise.value.isSome) :=
    List.mem_filter.mpr ⟨hmem, by simp [hsel]⟩
  cases hmx : maxByKey ((rs.filterMap (fun r => r)).filter
      (fun promise => promise.value.isSome)) with
  | none =>
    rw [maxByKey_eq_none _ hmx] at hself
    exact absurd hself (List.not_mem_nil sel)
  | some m =>
    have hmmem := maxByKey_mem _ _ hmx
    have hmfil := List.mem_filter.mp hmmem
    obtain ⟨c, hc⟩ := Option.isSome_iff_exists.mp (by simpa using hmfil.2)
    have hkey := maxByKey_le _ _ hmx sel hself
    have hkeys : promiseKey sel = b.id := by simp [promiseKey, hsel]
    have hkeym : promiseKey m = c.id := by simp [promiseKey, hc]
    have hble : b.id ≤ c.id := by rw [hkeys, hkeym] at hkey; exact hkey
    have hmc := hmax m hmfil.1 c hc
    have hcb : c.id = b.id := le_antisymm hmc.1 hble
    have hcw : c.value = some w := hmc.2 hcb
    simp only [Proposer.prepare]
    rw [if_neg (Nat.not_lt_of_le hq)]
    rw [resolveValue_eq_of_target _ v w m c hmx hc hcw]

/-- C1 amended witness: the claim's own tie-break instance — carried ballots
{id 5, value a} and {id 9, value b} resolve to "b", not "a" and not the
caller's value. -/
theorem claim_C1_amended_witness :
    (Proposer.prepare ⟨41⟩
        [some { error := none, value := some { id := 5, value := some "a" } },
         some { error := none, value := some { id := 9, value := some "b" } }] "caller").2
      = .ok { id := 42, value := some "b" } :=
  claim_C1_amended ⟨41⟩
    [some { error := none, value := some { id := 5, value := some "a" } },
     some { error := none, value := some { id := 9, value := some "b" } }]
    "caller" { error := none, value := some { id := 9, value := some "b" } }
    ⟨9, some "b"⟩ "b" (by decide) (by decide) rfl rfl (by decide)

end PaxosScratch
